import Mathlib

/-!
Verification of the irmin-blocksci benchmark program (`c_bin/benchmark.c`).

The program runs a fixed catalog of 17 aggregate queries over a hierarchical
path-addressed store.  The store itself is an external collaborator; it is
modelled as a pair of functions: `find` (content lookup at a path) and
`list` (children of a path).  Listed children are given directly by their
rendered path strings, matching `path_to_string` applied to each element of
the listing in the C program.

Every query of the program, the lenient record decoder (`json_get_int64`),
and the height scan (`find_last_block_height`) are embedded as executable
Lean functions mirroring the C source line by line; machine-integer effects
(`strtoll` clamping to int64, truncation to 32-bit `int`) are made explicit
with `int64Clamp` and `wrap32`.
-/

/-! ## Record decoder (`json_get_int64`, `json_get_int`, lines 26-38) -/

/-- numeric value of a maximal leading digit run, as in the digit loop of
`strtoll`: digits are consumed greedily until the first non-digit. -/
def parseDigitsNat (l : List Char) : Nat :=
  (l.takeWhile Char.isDigit).foldl (fun n c => 10 * n + (c.toNat - 48)) 0

/-- whitespace recognized by C `isspace` (skipped by `strtoll`). -/
def isCSpace (c : Char) : Bool :=
  c = ' ' || c = '\t' || c = '\n' || c = '\x0b' || c = '\x0c' || c = '\r'

/-- clamping to the signed 64-bit range, as `strtoll` does on overflow. -/
def int64Clamp (x : Int) : Int :=
  if x < -9223372036854775808 then -9223372036854775808
  else if x > 9223372036854775807 then 9223372036854775807
  else x

/-- conversion of a 64-bit value to a signed 32-bit `int` (two's-complement
wrap modulo 2^32), as in the C cast `(int)` of `json_get_int`. -/
def wrap32 (x : Int) : Int :=
  (x + 2147483648) % 4294967296 - 2147483648

/-- model of C `strtoll(s, NULL, 10)`: skip whitespace, optional sign,
then greedily parse decimal digits (zero if none), clamped to int64. -/
def strtollChars (l : List Char) : Int :=
  match l.dropWhile isCSpace with
  | '-' :: t => int64Clamp (-(parseDigitsNat t : Int))
  | '+' :: t => int64Clamp ((parseDigitsNat t : Int))
  | t => int64Clamp ((parseDigitsNat t : Int))

/-- model of C `atoi` (used on trailing height segments): `strtol` base 10
followed by truncation to `int`. -/
def atoiChars (l : List Char) : Int := wrap32 (strtollChars l)

/-- remainder of the haystack just after the first occurrence of `pat`,
modelling `strstr(json, pat)` followed by `pos += strlen(pat)`;
`none` when the pattern does not occur. -/
def strstrAfter (pat : List Char) : List Char → Option (List Char)
  | [] => if pat.isPrefixOf ([] : List Char) then some [] else none
  | c :: t =>
    if pat.isPrefixOf (c :: t) then some ((c :: t).drop pat.length)
    else strstrAfter pat t

/-- search pattern built by `snprintf(search, _, "\"%s\":", key)`. -/
def patOf (key : String) : List Char :=
  '"' :: (key.data ++ ['"', ':'])

/-- model of `json_get_int64` (lines 26-34): locate the first occurrence of
`"key":`, return 0 when absent, else skip spaces and `strtoll` the rest. -/
def json_get_int64 (json key : String) : Int :=
  match strstrAfter (patOf key) json.data with
  | none => 0
  | some rest => strtollChars (rest.dropWhile (fun c => c = ' '))

/-- model of `json_get_int` (lines 36-38): the int64 decode truncated to a
signed 32-bit `int`. -/
def json_get_int (json key : String) : Int := wrap32 (json_get_int64 json key)

/-! ## Store model -/

/-- the external store, reduced to the two primitives the queries use:
content lookup (`get_content`) and listing (`list_path`), both by rendered
path string.  `none` models a NULL return (absent path / absent listing). -/
structure Store where
  find : String → Option String
  list : String → Option (List String)

/-! ## Shared fold shapes.

Each C query loop advances an accumulator over a listing, skipping an
iteration (`continue`) whenever a lookup in its body returns NULL.  These
shapes capture that pattern exactly; each query below instantiates them. -/

/-- fold over an optional listing: a NULL listing yields the initial value
(the C functions return their initialized accumulator unchanged). -/
def optFold (o : Option (List String)) (init : Int) (step : Int → String → Int) : Int :=
  match o with
  | none => init
  | some l => l.foldl step init

/-- loop step that skips (`continue`) when `m` yields nothing, and otherwise
combines the accumulator with the extracted value by `g`. -/
def optStep (g : Int → Int → Int) (m : α → Option Int) (a : Int) (x : α) : Int :=
  match m x with
  | none => a
  | some v => g a v

/-- loop step that skips when `m` yields nothing, and otherwise increments
the counter exactly when the extracted test is true. -/
def optCountStep (m : α → Option Bool) (a : Int) (x : α) : Int :=
  match m x with
  | none => a
  | some b => if b then a + 1 else a

/-- the C accumulation `if (v > acc) acc = v`. -/
def maxIf (a v : Int) : Int := if v > a then v else a

/-- the C accumulation `acc += v`. -/
def addStep (a v : Int) : Int := a + v

/-! ## Height scan (`find_last_block_height`, lines 97-123) -/

/-- characters after the last '/' of a rendered path, modelling
`strrchr(pstr, '/')` then `slash + 1`; `none` when there is no slash
(the C loop then skips the entry). -/
def afterLastSlash : List Char → Option (List Char)
  | [] => none
  | c :: t =>
    match afterLastSlash t with
    | some r => some r
    | none => if c = '/' then some t else none

/-- the integer the C scan reads off one listed block entry:
`atoi(strrchr(pstr, '/') + 1)`. -/
def trailingHeight (p : String) : Option Int :=
  (afterLastSlash p.data).map atoiChars

/-- model of `find_last_block_height`: scan the `block` listing, keep the
maximum decoded trailing height, starting from -1; a NULL listing gives -1. -/
def find_last_block_height (s : Store) : Int :=
  optFold (s.list "block") (-1) (optStep maxIf trailingHeight)

/-! ## The 17 queries (lines 130-638) -/

/-- size of a listing, 0 when NULL (shape of `query_block_count`,
`query_tx_count`, `query_address_count`). -/
def listSize (s : Store) (p : String) : Int :=
  match s.list p with
  | none => 0
  | some l => (l.length : Int)

/-- model of `query_block_count` (lines 130-136). -/
def query_block_count (s : Store) : Int := listSize s "block"

/-- model of `query_tx_count` (lines 139-145). -/
def query_tx_count (s : Store) : Int := listSize s "tx"

/-- model of `query_address_count` (lines 148-154). -/
def query_address_count (s : Store) : Int := listSize s "address"

/-- common frame of the queries that loop over the `tx` listing with a
per-transaction step (locktime, version, fees, high value, multi input). -/
def foldTxJson (s : Store) (step : Int → String → Int) : Int :=
  optFold (s.list "tx") 0 step

/-- the decoded `fee` field of a transaction's content, skipped when the
content is NULL. -/
def txFeeOf (s : Store) (p : String) : Option Int :=
  (s.find p).map (fun j => json_get_int64 j "fee")

/-- model of `query_tx_locktime_gt_0` (lines 250-276). -/
def query_tx_locktime_gt_0 (s : Store) : Int :=
  foldTxJson s (optCountStep
    (fun p => (s.find p).map (fun j => decide (0 < json_get_int64 j "locktime"))))

/-- model of `query_tx_version_gt_1` (lines 279-305); note the `version`
field is read through the 32-bit `json_get_int`. -/
def query_tx_version_gt_1 (s : Store) : Int :=
  foldTxJson s (optCountStep
    (fun p => (s.find p).map (fun j => decide (1 < json_get_int j "version"))))

/-- model of `query_calculate_fee` (lines 380-406): running maximum of the
decoded fees, initialized at 0. -/
def query_calculate_fee (s : Store) : Int :=
  foldTxJson s (optStep maxIf (txFeeOf s))

/-- model of `query_total_fees` (lines 479-504): sum of the decoded fees. -/
def query_total_fees (s : Store) : Int :=
  foldTxJson s (optStep addStep (txFeeOf s))

/-- model of `query_high_value_tx` (lines 574-601): count of transactions
with decoded fee strictly above 1000000000. -/
def query_high_value_tx (s : Store) : Int :=
  foldTxJson s (optCountStep
    (fun p => (s.find p).map (fun j => decide (1000000000 < json_get_int64 j "fee"))))

/-- per-transaction test of `query_multi_input_tx`: decode `tx_id` from the
transaction content (NULL content skips), list `index/tx_inputs/{tx_id}`
(NULL listing skips), and test for strictly more than 10 entries. -/
def multiInputCheck (s : Store) (p : String) : Option Bool :=
  (s.find p).bind (fun j =>
    (s.list ("index/tx_inputs/" ++ toString (json_get_int j "tx_id"))).map
      (fun ins => decide (10 < ins.length)))

/-- model of `query_multi_input_tx` (lines 604-638). -/
def query_multi_input_tx (s : Store) : Int :=
  foldTxJson s (optCountStep (multiInputCheck s))

/-- the per-reference count read by `query_input_count`/`query_output_count`
(lines 172-196): resolve the reference content to a `tx_id` (NULL content
skips), then the size of the listing at `pre ++ tx_id` (NULL skips). -/
def refEntriesLen (s : Store) (pre : String) (rp : String) : Option Int :=
  (s.find rp).bind (fun ref =>
    (s.list (pre ++ toString (json_get_int ref "tx_id"))).map
      (fun es => (es.length : Int)))

/-- one block height of the input/output traversals: list
`index/block_txs/{height}` (NULL continues) and fold the reference step. -/
def heightStep (s : Store) (b : Int → String → Int) (acc : Int) (h : Nat) : Int :=
  optFold (s.list ("index/block_txs/" ++ toString h)) acc b

/-- the outer `for (height = 0; height <= last_height; height++)` frame of
the four index-join queries; a negative last height short-circuits to 0. -/
def overBlocks (s : Store) (b : Int → String → Int) : Int :=
  if find_last_block_height s < 0 then 0
  else (List.range ((find_last_block_height s).toNat + 1)).foldl (heightStep s b) 0

/-- model of `query_input_count` (lines 157-202). -/
def query_input_count (s : Store) : Int :=
  overBlocks s (optStep addStep (refEntriesLen s "index/tx_inputs/"))

/-- model of `query_output_count` (lines 205-247). -/
def query_output_count (s : Store) : Int :=
  overBlocks s (optStep addStep (refEntriesLen s "index/tx_outputs/"))

/-- the decoded output value behind one entry of `index/tx_outputs/{tx_id}`
(lines 344-369): read the reference content (NULL skips), decode
`tx_id`/`vout`, look up `output/{tx_id}/{vout}` (NULL skips), decode
`value`. -/
def outValCand (s : Store) (op : String) : Option Int :=
  (s.find op).bind (fun oref =>
    (s.find ("output/" ++ toString (json_get_int oref "tx_id") ++ "/" ++
        toString (json_get_int oref "vout"))).map
      (fun oj => json_get_int64 oj "value"))

/-- the per-block-tx-reference step of the two output-value traversals
(lines 322-372): resolve the reference to a `tx_id`, list
`index/tx_outputs/{tx_id}`, and fold the output values with `g`. -/
def outRefStep (s : Store) (g : Int → Int → Int) (a : Int) (rp : String) : Int :=
  match s.find rp with
  | none => a
  | some ref =>
    optFold (s.list ("index/tx_outputs/" ++ toString (json_get_int ref "tx_id")))
      a (optStep g (outValCand s))

/-- model of `query_max_output_value` (lines 308-377). -/
def query_max_output_value (s : Store) : Int :=
  overBlocks s (outRefStep s maxIf)

/-- model of `query_total_output_value` (lines 409-476). -/
def query_total_output_value (s : Store) : Int :=
  overBlocks s (outRefStep s addStep)

/-- model of `query_avg_tx_per_block` (lines 507-513); the C `/` on int64
truncates toward zero, which is `Int.tdiv`. -/
def query_avg_tx_per_block (s : Store) : Int :=
  if query_block_count s = 0 then 0
  else Int.tdiv (query_tx_count s * 1000) (query_block_count s)

/-- model of `query_max_tx_per_block` (lines 516-535). -/
def query_max_tx_per_block (s : Store) : Int :=
  if find_last_block_height s < 0 then 0
  else (List.range ((find_last_block_height s).toNat + 1)).foldl
    (fun acc h =>
      match s.list ("index/block_txs/" ++ toString h) with
      | none => acc
      | some refs => maxIf acc (refs.length : Int)) 0

/-- model of `query_spent_outputs` (lines 538-564): over the children of
`index/spent_by`, sum the sizes of each child's own listing. -/
def query_spent_outputs (s : Store) : Int :=
  optFold (s.list "index/spent_by") 0
    (optStep addStep (fun p => (s.list p).map (fun ch => (ch.length : Int))))

/-- model of `query_unspent_outputs` (lines 567-571). -/
def query_unspent_outputs (s : Store) : Int :=
  query_output_count s - query_spent_outputs s

/-! ## Benchmark catalog and CSV output (lines 644-724) -/

/-- the `benchmarks[]` array (lines 649-668), in source order. -/
def benchmarks : List (String × (Store → Int)) :=
  [("Block count", query_block_count),
   ("Tx count", query_tx_count),
   ("Input count", query_input_count),
   ("Output count", query_output_count),
   ("Address count", query_address_count),
   ("Tx locktime > 0", query_tx_locktime_gt_0),
   ("Max output value", query_max_output_value),
   ("Calculate fee", query_calculate_fee),
   ("Total output value", query_total_output_value),
   ("Total fees", query_total_fees),
   ("Tx version > 1", query_tx_version_gt_1),
   ("Avg tx per block", query_avg_tx_per_block),
   ("Max tx per block", query_max_tx_per_block),
   ("Spent outputs", query_spent_outputs),
   ("Unspent outputs", query_unspent_outputs),
   ("High value tx", query_high_value_tx),
   ("Multi-input tx", query_multi_input_tx)]

/-- the program's stdout (lines 713-724): the CSV header, then for each
catalog entry the line `name,time,result`.  The elapsed wall-clock time is
runtime-dependent and is abstracted as the `times` argument. -/
def csvOutput (s : Store) (times : String → String) : List String :=
  "Query,Time_ms,Result" ::
    benchmarks.map (fun nq => nq.1 ++ "," ++ times nq.1 ++ "," ++ toString (nq.2 s))

/-- the block-tx reference resolution step inlined in the traversal loops
(lines 180-186): look up the reference content and decode `tx_id` through
`json_get_int`; `continue` on NULL content is modelled as `none`. -/
def resolve_tx_id (s : Store) (p : String) : Option Int :=
  match s.find p with
  | none => none
  | some ref => some (json_get_int ref "tx_id")

/-! ## Store equivalence up to listing order -/

/-- two optional listings that agree up to permutation. -/
inductive OptPerm : Option (List String) → Option (List String) → Prop
  | none : OptPerm Option.none Option.none
  | some {l l' : List String} : l.Perm l' → OptPerm (Option.some l) (Option.some l')

/-- two stores with identical contents whose listings agree up to
permutation of the returned sequences. -/
def StorePerm (s t : Store) : Prop :=
  s.find = t.find ∧ ∀ p, OptPerm (s.list p) (t.list p)

/-! ## Candidate-value lists of the maximum/sum traversals.

These lists collect, in traversal order, exactly the values that each
query's loop body decodes; the bridge lemmas below prove that each query is
the plain fold of its accumulation function over its candidate list. -/

/-- the decoded fees of the `tx` listing, in listing order, skipping
transactions with NULL content. -/
def txFeesList (s : Store) : List Int :=
  match s.list "tx" with
  | none => []
  | some txs => txs.filterMap (txFeeOf s)

/-- the decoded output values behind one block-tx reference. -/
def outCandsOfRef (s : Store) (rp : String) : List Int :=
  match s.find rp with
  | none => []
  | some ref =>
    match s.list ("index/tx_outputs/" ++ toString (json_get_int ref "tx_id")) with
    | none => []
    | some outs => outs.filterMap (outValCand s)

/-- the decoded output values of one block height. -/
def outCandsOfHeight (s : Store) (h : Nat) : List Int :=
  match s.list ("index/block_txs/" ++ toString h) with
  | none => []
  | some refs => refs.flatMap (outCandsOfRef s)

/-- all decoded output values seen by the output-value traversals. -/
def outputValuesList (s : Store) : List Int :=
  if find_last_block_height s < 0 then []
  else (List.range ((find_last_block_height s).toNat + 1)).flatMap (outCandsOfHeight s)


/-! ## Auxiliary definitions for the claims -/

/-- decidable form of "this listed block entry has a trailing segment and it
decodes to a non-negative height" (the data model's assumption on `block`
children; a malformed numeric suffix decodes to 0 and is included). -/
def goodHeight (p : String) : Bool :=
  match trailingHeight p with
  | none => false
  | some hp => decide (0 <= hp)

/-- the metric order asserted by the specification's catalog table
(block_count, tx_count, address_count, input_count, output_count,
tx_locktime_gt_0, tx_version_gt_1, max_output_value, calculate_fee,
total_output_value, total_fees, avg_tx_per_block, max_tx_per_block,
spent_outputs, unspent_outputs, high_value_tx, multi_input_tx), rendered
with the program's display names, for comparison with `benchmarks`. -/
def claimedCatalogOrder : List String :=
  ["Block count", "Tx count", "Address count", "Input count", "Output count",
   "Tx locktime > 0", "Tx version > 1", "Max output value", "Calculate fee",
   "Total output value", "Total fees", "Avg tx per block", "Max tx per block",
   "Spent outputs", "Unspent outputs", "High value tx", "Multi-input tx"]

/-! ## Concrete stores used as witnesses and counterexamples -/

/-- the store with no content and no listings. -/
def emptyStore : Store := Store.mk (fun _ => none) (fun _ => none)

/-- a store whose `block` listing has two well-formed heights and one entry
with a non-numeric trailing segment. -/
def w1 : Store :=
  Store.mk (fun _ => none)
    (fun p => if p = "block" then some ["block/2", "block/10", "block/xx"] else none)

/-- a store with two blocks and three transactions. -/
def w3 : Store :=
  Store.mk (fun _ => none)
    (fun p =>
      if p = "block" then some ["block/0", "block/1"]
      else if p = "tx" then some ["tx/0", "tx/1", "tx/2"]
      else none)

/-- a store with one spent-output index entry and no outputs at all, making
the unspent-output difference negative. -/
def negStore : Store :=
  Store.mk (fun _ => none)
    (fun p =>
      if p = "index/spent_by" then some ["index/spent_by/0"]
      else if p = "index/spent_by/0" then some ["index/spent_by/0/0"]
      else none)

/-- a store with two transactions: one with 10 input-index entries and one
with 11. -/
def w5 : Store :=
  Store.mk
    (fun p =>
      if p = "tx/0" then some "\"tx_id\": 0"
      else if p = "tx/1" then some "\"tx_id\": 1"
      else none)
    (fun p =>
      if p = "tx" then some ["tx/0", "tx/1"]
      else if p = "index/tx_inputs/0" then
        some ["a0", "a1", "a2", "a3", "a4", "a5", "a6", "a7", "a8", "a9"]
      else if p = "index/tx_inputs/1" then
        some ["b0", "b1", "b2", "b3", "b4", "b5", "b6", "b7", "b8", "b9", "b10"]
      else none)

/-- a store whose single transaction has a negative decoded fee. -/
def cexStore6 : Store :=
  Store.mk
    (fun p => if p = "tx/0" then some "\"fee\": -5" else none)
    (fun p => if p = "tx" then some ["tx/0"] else none)

/-- a store with two transactions carrying fees 7 and 3. -/
def w6 : Store :=
  Store.mk
    (fun p =>
      if p = "tx/0" then some "\"fee\": 7"
      else if p = "tx/1" then some "\"fee\": 3"
      else none)
    (fun p => if p = "tx" then some ["tx/0", "tx/1"] else none)

/-- a store holding a reference record whose `tx_id` field is 2^31, just
past the positive 32-bit range. -/
def cexStore7 : Store :=
  Store.mk
    (fun p => if p = "r" then some "\"tx_id\": 2147483648" else none)
    (fun _ => none)

/-- a store holding a reference record with a small `tx_id`. -/
def w7 : Store :=
  Store.mk
    (fun p => if p = "r" then some "\"tx_id\": 5" else none)
    (fun _ => none)

/-- shared contents of the permuted-listing witness stores. -/
def w8find : String → Option String := fun p =>
  if p = "tx/0" then some "\"tx_id\": 0\n\"fee\": 3\n\"locktime\": 1\n\"version\": 2"
  else if p = "tx/1" then some "\"tx_id\": 1\n\"fee\": 7\n\"locktime\": 0\n\"version\": 1"
  else none

/-- listing of the first permuted-listing witness store. -/
def w8lista : String → Option (List String) := fun p =>
  if p = "tx" then some ["tx/0", "tx/1"] else none

/-- listing of the second permuted-listing witness store: the same children
in the opposite order. -/
def w8listb : String → Option (List String) := fun p =>
  if p = "tx" then some ["tx/1", "tx/0"] else none

/-- first permuted-listing witness store. -/
def w8a : Store := Store.mk w8find w8lista

/-- second permuted-listing witness store. -/
def w8b : Store := Store.mk w8find w8listb

/-- a store with one block, one block-tx reference, one output reference
and one output record of value 1000. -/
def w10 : Store :=
  Store.mk
    (fun p =>
      if p = "index/block_txs/0/0" then some "\"tx_id\": 0"
      else if p = "index/tx_outputs/0/0" then some "\"tx_id\": 0\n\"vout\": 0"
      else if p = "output/0/0" then some "\"value\": 1000"
      else none)
    (fun p =>
      if p = "block" then some ["block/0"]
      else if p = "index/block_txs/0" then some ["index/block_txs/0/0"]
      else if p = "index/tx_outputs/0" then some ["index/tx_outputs/0/0"]
      else none)

/-! ## Theorems -/

/-! ## Generic facts about the fold shapes -/

/-- right-commutativity of a fold step: processing two elements in either
order yields the same accumulator. -/
def RComm {α : Type} (f : Int → α → Int) : Prop :=
  ∀ a x y, f (f a x) y = f (f a y) x

theorem foldl_rcomm_perm {α : Type} {f : Int → α → Int} (hf : RComm f)
    {l l' : List α} (h : l.Perm l') : ∀ a, l.foldl f a = l'.foldl f a := by
  induction h with
  | nil => intro a; rfl
  | cons x _ ih => intro a; simp only [List.foldl_cons]; exact ih _
  | swap x y l => intro a; simp only [List.foldl_cons]; rw [hf]
  | trans _ _ ih1 ih2 => intro a; rw [ih1 a, ih2 a]

theorem foldl_exchange {α : Type} {f : Int → α → Int} (hf : RComm f)
    (l1 l2 : List α) (a : Int) :
    l2.foldl f (l1.foldl f a) = l1.foldl f (l2.foldl f a) := by
  rw [← List.foldl_append, ← List.foldl_append]
  exact foldl_rcomm_perm hf List.perm_append_comm a

theorem foldl_congr_fun {α : Type} {f g : Int → α → Int}
    (h : ∀ a x, f a x = g a x) (l : List α) (a : Int) :
    l.foldl f a = l.foldl g a := by
  have hfg : f = g := funext (fun a => funext (fun x => h a x))
  rw [hfg]

theorem rcomm_optStep {α : Type} {g : Int → Int → Int}
    (hg : ∀ a u v, g (g a u) v = g (g a v) u) (m : α → Option Int) :
    RComm (optStep g m) := by
  intro a x y
  cases hx : m x <;> cases hy : m y <;> simp [optStep, hx, hy]
  exact hg a _ _

theorem rcomm_optCountStep {α : Type} (m : α → Option Bool) :
    RComm (optCountStep m) := by
  intro a x y
  cases hx : m x <;> cases hy : m y <;> simp [optCountStep, hx, hy]
  rename_i b b'
  cases b <;> cases b' <;> simp

theorem maxIf_rc : ∀ a u v : Int, maxIf (maxIf a u) v = maxIf (maxIf a v) u := by
  intro a u v; unfold maxIf; split_ifs <;> omega

theorem addStep_rc : ∀ a u v : Int, addStep (addStep a u) v = addStep (addStep a v) u := by
  intro a u v; unfold addStep; omega

theorem le_foldl_maxIf (l : List Int) : ∀ a : Int, a ≤ l.foldl maxIf a := by
  induction l with
  | nil => intro a; exact le_refl a
  | cons v t ih =>
    intro a
    simp only [List.foldl_cons]
    have h1 : a ≤ maxIf a v := by unfold maxIf; split_ifs <;> omega
    exact le_trans h1 (ih (maxIf a v))

theorem mem_le_foldl_maxIf (l : List Int) : ∀ a : Int, ∀ v ∈ l, v ≤ l.foldl maxIf a := by
  induction l with
  | nil => intro a v hv; cases hv
  | cons w t ih =>
    intro a v hv
    simp only [List.foldl_cons]
    rcases List.mem_cons.mp hv with rfl | hv2
    · have h1 : v ≤ maxIf a v := by unfold maxIf; split_ifs <;> omega
      exact le_trans h1 (le_foldl_maxIf t (maxIf a v))
    · exact ih (maxIf a w) v hv2

theorem foldl_maxIf_mem (l : List Int) : ∀ a : Int,
    l.foldl maxIf a = a ∨ l.foldl maxIf a ∈ l := by
  induction l with
  | nil => intro a; exact Or.inl rfl
  | cons v t ih =>
    intro a
    simp only [List.foldl_cons]
    rcases ih (maxIf a v) with h | h
    · rw [h]; unfold maxIf; split_ifs
      · exact Or.inr (List.mem_cons_self v t)
      · exact Or.inl rfl
    · exact Or.inr (List.mem_cons_of_mem v h)

theorem foldl_optStep_filterMap {α : Type} (g : Int → Int → Int) (m : α → Option Int)
    (l : List α) : ∀ a : Int,
    l.foldl (optStep g m) a = (l.filterMap m).foldl g a := by
  induction l with
  | nil => intro a; rfl
  | cons x t ih =>
    intro a
    simp only [List.foldl_cons]
    cases hx : m x with
    | none =>
      have h1 : optStep g m a x = a := by simp [optStep, hx]
      rw [h1, List.filterMap_cons_none hx]
      exact ih a
    | some v =>
      have h1 : optStep g m a x = g a v := by simp [optStep, hx]
      rw [h1, List.filterMap_cons_some hx, List.foldl_cons]
      exact ih (g a v)

theorem foldl_optCountStep_count {α : Type} (m : α → Option Bool) (l : List α) :
    ∀ a : Int,
    l.foldl (optCountStep m) a = a + (l.countP (fun x => decide (m x = some true)) : Int) := by
  induction l with
  | nil => intro a; simp
  | cons x t ih =>
    intro a
    simp only [List.foldl_cons, List.countP_cons]
    cases hx : m x with
    | none =>
      have h1 : optCountStep m a x = a := by simp [optCountStep, hx]
      rw [h1, ih a]
      simp
    | some b =>
      cases b with
      | false =>
        have h1 : optCountStep m a x = a := by simp [optCountStep, hx]
        rw [h1, ih a]
        simp
      | true =>
        have h1 : optCountStep m a x = a + 1 := by simp [optCountStep, hx]
        rw [h1, ih (a + 1)]
        push_cast
        simp
        ring

theorem foldl_from_parts {α : Type} {g : Int → Int → Int} {b : Int → α → Int}
    {c : α → List Int} (hb : ∀ a x, b a x = (c x).foldl g a) (l : List α) :
    ∀ a : Int, l.foldl b a = (l.flatMap c).foldl g a := by
  induction l with
  | nil => intro a; rfl
  | cons x t ih =>
    intro a
    rw [List.flatMap_cons, List.foldl_append, List.foldl_cons, hb]
    exact ih ((c x).foldl g a)

/-! ## First-occurrence characterization of the pattern scan -/

theorem strstrAfter_eq_none {pat hay : List Char}
    (h : ∀ i, pat.isPrefixOf (hay.drop i) = false) : strstrAfter pat hay = none := by
  induction hay with
  | nil =>
    have h0 := h 0
    simp only [List.drop_zero] at h0
    simp [strstrAfter, h0]
  | cons c t ih =>
    have h0 := h 0
    simp only [List.drop_zero] at h0
    unfold strstrAfter
    rw [h0]
    simp only [Bool.false_eq_true, if_false]
    refine ih (fun i => ?_)
    have hh := h (i + 1)
    rwa [List.drop_succ_cons] at hh

theorem strstrAfter_first {pat hay : List Char} {i : Nat}
    (hi : pat.isPrefixOf (hay.drop i) = true)
    (hmin : ∀ j, j < i → pat.isPrefixOf (hay.drop j) = false) :
    strstrAfter pat hay = some (hay.drop (i + pat.length)) := by
  induction hay generalizing i with
  | nil =>
    rw [List.drop_nil] at hi
    cases pat with
    | nil => simp [strstrAfter, List.drop_nil]
    | cons pc pt => simp [List.isPrefixOf] at hi
  | cons c t ih =>
    cases i with
    | zero =>
      simp only [List.drop_zero] at hi
      unfold strstrAfter
      rw [hi]
      simp
    | succ k =>
      have h0 := hmin 0 (Nat.succ_pos k)
      simp only [List.drop_zero] at h0
      unfold strstrAfter
      rw [h0]
      simp only [Bool.false_eq_true, if_false]
      have hi2 : pat.isPrefixOf (t.drop k) = true := by
        rwa [List.drop_succ_cons] at hi
      have hmin2 : ∀ j, j < k → pat.isPrefixOf (t.drop j) = false := by
        intro j hj
        have hh := hmin (j + 1) (Nat.succ_lt_succ hj)
        rwa [List.drop_succ_cons] at hh
      rw [ih hi2 hmin2]
      have hk : k + 1 + pat.length = (k + pat.length) + 1 := by omega
      rw [hk, List.drop_succ_cons]

theorem query_calculate_fee_eq (s : Store) :
    query_calculate_fee s = (txFeesList s).foldl maxIf 0 := by
  unfold query_calculate_fee foldTxJson txFeesList optFold
  cases s.list "tx" with
  | none => rfl
  | some txs => exact foldl_optStep_filterMap maxIf (txFeeOf s) txs 0

theorem outRefStep_eq (s : Store) (g : Int → Int → Int) :
    ∀ (a : Int) (rp : String), outRefStep s g a rp = (outCandsOfRef s rp).foldl g a := by
  intro a rp
  unfold outRefStep outCandsOfRef
  cases s.find rp with
  | none => rfl
  | some ref =>
    dsimp only
    unfold optFold
    cases s.list ("index/tx_outputs/" ++ toString (json_get_int ref "tx_id")) with
    | none => rfl
    | some outs => exact foldl_optStep_filterMap g (outValCand s) outs a

theorem heightStep_outs_eq (s : Store) (g : Int → Int → Int) :
    ∀ (acc : Int) (h : Nat),
    heightStep s (outRefStep s g) acc h = (outCandsOfHeight s h).foldl g acc := by
  intro acc h
  unfold heightStep outCandsOfHeight optFold
  cases s.list ("index/block_txs/" ++ toString h) with
  | none => rfl
  | some refs => exact foldl_from_parts (outRefStep_eq s g) refs acc

theorem overBlocks_outs_eq (s : Store) (g : Int → Int → Int) :
    overBlocks s (outRefStep s g) = (outputValuesList s).foldl g 0 := by
  unfold overBlocks outputValuesList
  by_cases hlt : find_last_block_height s < 0
  · simp [hlt]
  · simp only [hlt, if_false]
    exact foldl_from_parts (heightStep_outs_eq s g) _ 0

theorem query_max_output_value_eq (s : Store) :
    query_max_output_value s = (outputValuesList s).foldl maxIf 0 :=
  overBlocks_outs_eq s maxIf

/-! ## Listing-order invariance of each query -/

theorem OptPerm.map_len {o o' : Option (List String)} (h : OptPerm o o')
    {β : Type} (f : Nat → β) :
    o.map (fun l => f l.length) = o'.map (fun l => f l.length) := by
  cases h with
  | none => rfl
  | some hp => dsimp only [Option.map]; rw [hp.length_eq]

theorem optFold_inv {step step' : Int → String → Int} (hs : RComm step)
    (hpe : ∀ a p, step a p = step' a p) {o o' : Option (List String)}
    (h : OptPerm o o') (init : Int) : optFold o init step = optFold o' init step' := by
  cases h with
  | none => rfl
  | some hp =>
    rename_i l l'
    unfold optFold
    dsimp only
    rw [foldl_rcomm_perm hs hp init]
    exact foldl_congr_fun hpe l' init

theorem optStep_congr {α : Type} (g : Int → Int → Int) {m m' : α → Option Int}
    (hm : ∀ x, m x = m' x) : ∀ a x, optStep g m a x = optStep g m' a x := by
  intro a x; unfold optStep; rw [hm x]

theorem optCountStep_congr {α : Type} {m m' : α → Option Bool}
    (hm : ∀ x, m x = m' x) : ∀ a x, optCountStep m a x = optCountStep m' a x := by
  intro a x; unfold optCountStep; rw [hm x]

theorem listSize_inv (s s' : Store) (hsp : StorePerm s s') (p : String) :
    listSize s p = listSize s' p := by
  have h := hsp.2 p
  unfold listSize
  revert h
  generalize s.list p = o
  generalize s'.list p = o'
  intro h
  cases h with
  | none => rfl
  | some hp => dsimp only; rw [hp.length_eq]

theorem flbh_inv (s s' : Store) (hsp : StorePerm s s') :
    find_last_block_height s = find_last_block_height s' := by
  unfold find_last_block_height
  exact optFold_inv (rcomm_optStep maxIf_rc trailingHeight)
    (fun a p => rfl) (hsp.2 "block") (-1)

theorem txFeeOf_inv (s s' : Store) (hsp : StorePerm s s') (p : String) :
    txFeeOf s p = txFeeOf s' p := by
  unfold txFeeOf; rw [hsp.1]

theorem multiInputCheck_inv (s s' : Store) (hsp : StorePerm s s') (p : String) :
    multiInputCheck s p = multiInputCheck s' p := by
  unfold multiInputCheck
  rw [hsp.1]
  cases s'.find p with
  | none => rfl
  | some j =>
    dsimp only [Option.bind]
    exact OptPerm.map_len (hsp.2 _) (fun n => decide (10 < n))

theorem refEntriesLen_inv (s s' : Store) (hsp : StorePerm s s') (pre rp : String) :
    refEntriesLen s pre rp = refEntriesLen s' pre rp := by
  unfold refEntriesLen
  rw [hsp.1]
  cases s'.find rp with
  | none => rfl
  | some ref =>
    dsimp only [Option.bind]
    exact OptPerm.map_len (hsp.2 _) (fun n => (n : Int))

theorem outValCand_inv (s s' : Store) (hsp : StorePerm s s') :
    outValCand s = outValCand s' := by
  funext op; unfold outValCand; rw [hsp.1]

theorem outCandsOfRef_perm (s s' : Store) (hsp : StorePerm s s') (rp : String) :
    (outCandsOfRef s rp).Perm (outCandsOfRef s' rp) := by
  unfold outCandsOfRef
  rw [hsp.1, outValCand_inv s s' hsp]
  cases s'.find rp with
  | none => exact List.Perm.refl _
  | some ref =>
    dsimp only
    have h := hsp.2 ("index/tx_outputs/" ++ toString (json_get_int ref "tx_id"))
    revert h
    generalize s.list ("index/tx_outputs/" ++ toString (json_get_int ref "tx_id")) = o
    generalize s'.list ("index/tx_outputs/" ++ toString (json_get_int ref "tx_id")) = o'
    intro h
    cases h with
    | none => exact List.Perm.refl _
    | some hp => dsimp only; exact hp.filterMap _

theorem rcomm_outRefStep (s : Store) (g : Int → Int → Int)
    (hg : ∀ a u v, g (g a u) v = g (g a v) u) : RComm (outRefStep s g) := by
  intro a x y
  rw [outRefStep_eq, outRefStep_eq, outRefStep_eq, outRefStep_eq]
  exact foldl_exchange hg (outCandsOfRef s x) (outCandsOfRef s y) a

theorem outRefStep_congr (s s' : Store) (hsp : StorePerm s s') (g : Int → Int → Int)
    (hg : ∀ a u v, g (g a u) v = g (g a v) u) :
    ∀ a rp, outRefStep s g a rp = outRefStep s' g a rp := by
  intro a rp
  rw [outRefStep_eq, outRefStep_eq]
  exact foldl_rcomm_perm hg (outCandsOfRef_perm s s' hsp rp) a

theorem overBlocks_outs_inv (s s' : Store) (hsp : StorePerm s s')
    (g : Int → Int → Int) (hg : ∀ a u v, g (g a u) v = g (g a v) u) :
    overBlocks s (outRefStep s g) = overBlocks s' (outRefStep s' g) := by
  unfold overBlocks
  rw [← flbh_inv s s' hsp]
  by_cases hlt : find_last_block_height s < 0
  · simp [hlt]
  · simp only [hlt, if_false]
    apply foldl_congr_fun
    intro acc h
    unfold heightStep
    exact optFold_inv (rcomm_outRefStep s g hg)
      (outRefStep_congr s s' hsp g hg) (hsp.2 _) acc

theorem queryRefCount_inv (s s' : Store) (hsp : StorePerm s s') (pre : String) :
    overBlocks s (optStep addStep (refEntriesLen s pre)) =
      overBlocks s' (optStep addStep (refEntriesLen s' pre)) := by
  unfold overBlocks
  rw [← flbh_inv s s' hsp]
  by_cases hlt : find_last_block_height s < 0
  · simp [hlt]
  · simp only [hlt, if_false]
    apply foldl_congr_fun
    intro acc h
    unfold heightStep
    exact optFold_inv (rcomm_optStep addStep_rc _)
      (optStep_congr addStep (fun rp => refEntriesLen_inv s s' hsp pre rp)) (hsp.2 _) acc

theorem query_block_count_inv (s s' : Store) (hsp : StorePerm s s') :
    query_block_count s = query_block_count s' := listSize_inv s s' hsp "block"

theorem query_tx_count_inv (s s' : Store) (hsp : StorePerm s s') :
    query_tx_count s = query_tx_count s' := listSize_inv s s' hsp "tx"

theorem query_address_count_inv (s s' : Store) (hsp : StorePerm s s') :
    query_address_count s = query_address_count s' := listSize_inv s s' hsp "address"

theorem query_input_count_inv (s s' : Store) (hsp : StorePerm s s') :
    query_input_count s = query_input_count s' :=
  queryRefCount_inv s s' hsp "index/tx_inputs/"

theorem query_output_count_inv (s s' : Store) (hsp : StorePerm s s') :
    query_output_count s = query_output_count s' :=
  queryRefCount_inv s s' hsp "index/tx_outputs/"

theorem query_tx_locktime_gt_0_inv (s s' : Store) (hsp : StorePerm s s') :
    query_tx_locktime_gt_0 s = query_tx_locktime_gt_0 s' := by
  unfold query_tx_locktime_gt_0 foldTxJson
  exact optFold_inv (rcomm_optCountStep _)
    (optCountStep_congr (fun p => by rw [hsp.1])) (hsp.2 "tx") 0

theorem query_tx_version_gt_1_inv (s s' : Store) (hsp : StorePerm s s') :
    query_tx_version_gt_1 s = query_tx_version_gt_1 s' := by
  unfold query_tx_version_gt_1 foldTxJson
  exact optFold_inv (rcomm_optCountStep _)
    (optCountStep_congr (fun p => by rw [hsp.1])) (hsp.2 "tx") 0

theorem query_high_value_tx_inv (s s' : Store) (hsp : StorePerm s s') :
    query_high_value_tx s = query_high_value_tx s' := by
  unfold query_high_value_tx foldTxJson
  exact optFold_inv (rcomm_optCountStep _)
    (optCountStep_congr (fun p => by rw [hsp.1])) (hsp.2 "tx") 0

theorem query_multi_input_tx_inv (s s' : Store) (hsp : StorePerm s s') :
    query_multi_input_tx s = query_multi_input_tx s' := by
  unfold query_multi_input_tx foldTxJson
  exact optFold_inv (rcomm_optCountStep _)
    (optCountStep_congr (multiInputCheck_inv s s' hsp)) (hsp.2 "tx") 0

theorem query_calculate_fee_inv (s s' : Store) (hsp : StorePerm s s') :
    query_calculate_fee s = query_calculate_fee s' := by
  unfold query_calculate_fee foldTxJson
  exact optFold_inv (rcomm_optStep maxIf_rc _)
    (optStep_congr maxIf (txFeeOf_inv s s' hsp)) (hsp.2 "tx") 0

theorem query_total_fees_inv (s s' : Store) (hsp : StorePerm s s') :
    query_total_fees s = query_total_fees s' := by
  unfold query_total_fees foldTxJson
  exact optFold_inv (rcomm_optStep addStep_rc _)
    (optStep_congr addStep (txFeeOf_inv s s' hsp)) (hsp.2 "tx") 0

theorem query_max_output_value_inv (s s' : Store) (hsp : StorePerm s s') :
    query_max_output_value s = query_max_output_value s' :=
  overBlocks_outs_inv s s' hsp maxIf maxIf_rc

theorem query_total_output_value_inv (s s' : Store) (hsp : StorePerm s s') :
    query_total_output_value s = query_total_output_value s' :=
  overBlocks_outs_inv s s' hsp addStep addStep_rc

theorem query_avg_tx_per_block_inv (s s' : Store) (hsp : StorePerm s s') :
    query_avg_tx_per_block s = query_avg_tx_per_block s' := by
  unfold query_avg_tx_per_block
  rw [query_block_count_inv s s' hsp, query_tx_count_inv s s' hsp]

theorem query_max_tx_per_block_inv (s s' : Store) (hsp : StorePerm s s') :
    query_max_tx_per_block s = query_max_tx_per_block s' := by
  unfold query_max_tx_per_block
  rw [← flbh_inv s s' hsp]
  by_cases hlt : find_last_block_height s < 0
  · simp [hlt]
  · simp only [hlt, if_false]
    apply foldl_congr_fun
    intro acc h
    have hq := hsp.2 ("index/block_txs/" ++ toString h)
    revert hq
    generalize s.list ("index/block_txs/" ++ toString h) = o
    generalize s'.list ("index/block_txs/" ++ toString h) = o'
    intro hq
    cases hq with
    | none => rfl
    | some hp => dsimp only; rw [hp.length_eq]

theorem query_spent_outputs_inv (s s' : Store) (hsp : StorePerm s s') :
    query_spent_outputs s = query_spent_outputs s' := by
  unfold query_spent_outputs
  exact optFold_inv (rcomm_optStep addStep_rc _)
    (optStep_congr addStep (fun p => OptPerm.map_len (hsp.2 p) (fun n => (n : Int))))
    (hsp.2 "index/spent_by") 0

theorem query_unspent_outputs_inv (s s' : Store) (hsp : StorePerm s s') :
    query_unspent_outputs s = query_unspent_outputs s' := by
  unfold query_unspent_outputs
  rw [query_output_count_inv s s' hsp, query_spent_outputs_inv s s' hsp]

/-! ## Claim theorems -/

/-- C1: `find_last_block_height` returns -1 when the `block` listing is
absent or empty; otherwise, provided every listed child is a genuine path
with a non-negative decoded trailing height (a malformed numeric suffix
decodes to height 0 and participates), the result is the maximum decoded
trailing height: an upper bound of all of them that is itself one of them. -/
theorem find_last_block_height_spec (s : Store) :
    (s.list "block" = none → find_last_block_height s = -1) ∧
    (s.list "block" = some [] → find_last_block_height s = -1) ∧
    (∀ l, s.list "block" = some l → l ≠ [] → (∀ p ∈ l, goodHeight p = true) →
      (∀ p ∈ l, ∀ hp, trailingHeight p = some hp → hp ≤ find_last_block_height s) ∧
      (∃ p ∈ l, trailingHeight p = some (find_last_block_height s))) := by
  refine ⟨?_, ?_, ?_⟩
  · intro h; unfold find_last_block_height optFold; rw [h]
  · intro h
    unfold find_last_block_height optFold
    rw [h]
    rfl
  · intro l hsome hne hgood
    have heq : find_last_block_height s = (l.filterMap trailingHeight).foldl maxIf (-1) := by
      unfold find_last_block_height optFold
      rw [hsome]
      dsimp only
      exact foldl_optStep_filterMap maxIf trailingHeight l (-1)
    have hub : ∀ p ∈ l, ∀ hp, trailingHeight p = some hp →
        hp ≤ find_last_block_height s := by
      intro p hpmem hp hpe
      rw [heq]
      exact mem_le_foldl_maxIf _ (-1) hp (List.mem_filterMap.mpr ⟨p, hpmem, hpe⟩)
    refine ⟨hub, ?_⟩
    obtain ⟨p0, hp0⟩ := List.exists_mem_of_ne_nil l hne
    have hg0 := hgood p0 hp0
    cases ht0 : trailingHeight p0 with
    | none => simp [goodHeight, ht0] at hg0
    | some h0 =>
      simp only [goodHeight, ht0, decide_eq_true_eq] at hg0
      have hge : 0 ≤ find_last_block_height s := le_trans hg0 (hub p0 hp0 h0 ht0)
      rcases foldl_maxIf_mem (l.filterMap trailingHeight) (-1) with hm | hm
      · rw [← heq] at hm; omega
      · rw [← heq] at hm
        obtain ⟨p, hpmem, hpe⟩ := List.mem_filterMap.mp hm
        exact ⟨p, hpmem, hpe⟩

/-- C1 witness: on a concrete `block` listing with heights 2 and 10 and one
malformed entry (decoding to 0), the scan returns 10, which is attained. -/
theorem find_last_block_height_spec_witness :
    (["block/2", "block/10", "block/xx"] : List String) ≠ [] ∧
    (∀ p ∈ (["block/2", "block/10", "block/xx"] : List String), goodHeight p = true) ∧
    find_last_block_height w1 = 10 ∧
    (∃ p ∈ (["block/2", "block/10", "block/xx"] : List String),
      trailingHeight p = some (find_last_block_height w1)) := by
  refine ⟨by decide, by decide, by decide, ?_⟩
  exact ((find_last_block_height_spec w1).2.2 ["block/2", "block/10", "block/xx"]
    (by decide) (by decide) (by decide)).2

/-- C2: `json_get_int64` returns 0 (not an error) when the literal pattern
`"key":` occurs nowhere in the record, and when the pattern first occurs at
offset i it parses the remainder after the pattern by skipping spaces and
applying the greedy signed-decimal `strtoll` parse, with no further
validation of the record. -/
theorem json_get_int64_spec (json key : String) :
    ((∀ i, i ≤ json.data.length → (patOf key).isPrefixOf (json.data.drop i) = false) →
      json_get_int64 json key = 0) ∧
    (∀ i, (patOf key).isPrefixOf (json.data.drop i) = true →
      (∀ j, j < i → (patOf key).isPrefixOf (json.data.drop j) = false) →
      json_get_int64 json key =
        strtollChars ((json.data.drop (i + (patOf key).length)).dropWhile
          (fun c => c = ' '))) := by
  constructor
  · intro h
    have hall : ∀ i, (patOf key).isPrefixOf (json.data.drop i) = false := by
      intro i
      by_cases hi : i ≤ json.data.length
      · exact h i hi
      · have hnil : json.data.drop i = [] := List.drop_eq_nil_of_le (by omega)
        rw [hnil]
        rfl
    unfold json_get_int64
    rw [strstrAfter_eq_none hall]
  · intro i hi hmin
    unfold json_get_int64
    rw [strstrAfter_first hi hmin]

/-- C2 witness: a record without the key decodes to 0; a record with the
key (first occurrence at offset 0) decodes to the greedy parse, 42. -/
theorem json_get_int64_spec_witness :
    json_get_int64 "\"locktime\": 7" "fee" = 0 ∧
    json_get_int64 "\"fee\": 42, \"locktime\": 7" "fee" = 42 := by
  constructor
  · exact (json_get_int64_spec "\"locktime\": 7" "fee").1 (by decide)
  · have h := (json_get_int64_spec "\"fee\": 42, \"locktime\": 7" "fee").2 0
      (by decide) (fun j hj => absurd hj (Nat.not_lt_zero j))
    rw [h]
    decide

/-- C3: both counts are non-negative; `query_avg_tx_per_block` is 0 when
the block count is 0, and otherwise is `(tx_count * 1000) / block_count`
with division truncating toward zero, which on these non-negative operands
equals the floor (Euclidean) division. -/
theorem query_avg_tx_per_block_spec (s : Store) :
    0 ≤ query_block_count s ∧ 0 ≤ query_tx_count s ∧
    (query_block_count s = 0 → query_avg_tx_per_block s = 0) ∧
    (0 < query_block_count s →
      query_avg_tx_per_block s =
        Int.tdiv (query_tx_count s * 1000) (query_block_count s) ∧
      query_avg_tx_per_block s =
        Int.ediv (query_tx_count s * 1000) (query_block_count s)) := by
  have hb : 0 ≤ query_block_count s := by
    unfold query_block_count listSize
    cases s.list "block" with
    | none => exact le_refl 0
    | some l => dsimp only; omega
  have ht : 0 ≤ query_tx_count s := by
    unfold query_tx_count listSize
    cases s.list "tx" with
    | none => exact le_refl 0
    | some l => dsimp only; omega
  refine ⟨hb, ht, ?_, ?_⟩
  · intro h; unfold query_avg_tx_per_block; rw [if_pos h]
  · intro hpos
    have hne : ¬ query_block_count s = 0 := by omega
    have h1 : query_avg_tx_per_block s =
        Int.tdiv (query_tx_count s * 1000) (query_block_count s) := by
      unfold query_avg_tx_per_block
      rw [if_neg hne]
    refine ⟨h1, ?_⟩
    rw [h1]
    exact Int.tdiv_eq_ediv (by omega) (by omega)

/-- C3 witness: with 2 blocks and 3 transactions the result is the
truncated scaled ratio 1500; on the empty store the result is 0. -/
theorem query_avg_tx_per_block_spec_witness :
    (0 : Int) < query_block_count w3 ∧
    query_avg_tx_per_block w3 =
      Int.tdiv (query_tx_count w3 * 1000) (query_block_count w3) ∧
    query_avg_tx_per_block w3 = 1500 ∧
    query_block_count emptyStore = 0 ∧
    query_avg_tx_per_block emptyStore = 0 := by
  refine ⟨by decide, ((query_avg_tx_per_block_spec w3).2.2.2 (by decide)).1,
    by decide, by decide, (query_avg_tx_per_block_spec emptyStore).2.2.1 (by decide)⟩

/-- C4: `query_unspent_outputs` is exactly the output count minus the spent
count, with no clamping: on a store whose indices are inconsistent (a spent
entry with no outputs) the difference is negative and propagated as-is. -/
theorem query_unspent_outputs_spec :
    (∀ s : Store, query_unspent_outputs s = query_output_count s - query_spent_outputs s) ∧
    (∃ s : Store, query_unspent_outputs s < 0) := by
  constructor
  · intro s; rfl
  · exact ⟨negStore, by decide⟩

/-- C5: `query_multi_input_tx` is 0 on an absent `tx` listing, and
otherwise counts exactly the listed transactions whose per-transaction test
holds; the test holds precisely when the transaction has content and the
`index/tx_inputs/{tx_id}` listing for its decoded `tx_id` exists and has
strictly more than 10 entries (so exactly 10 is excluded). -/
theorem query_multi_input_tx_spec (s : Store) :
    (s.list "tx" = none → query_multi_input_tx s = 0) ∧
    (∀ txs, s.list "tx" = some txs →
      query_multi_input_tx s =
        (txs.countP (fun p => decide (multiInputCheck s p = some true)) : Int)) ∧
    (∀ p, multiInputCheck s p = some true ↔
      ∃ j, s.find p = some j ∧
        ∃ ins, s.list ("index/tx_inputs/" ++ toString (json_get_int j "tx_id")) = some ins ∧
          10 < ins.length) := by
  refine ⟨?_, ?_, ?_⟩
  · intro h; unfold query_multi_input_tx foldTxJson optFold; rw [h]
  · intro txs h
    unfold query_multi_input_tx foldTxJson optFold
    rw [h]
    dsimp only
    rw [foldl_optCountStep_count]
    omega
  · intro p
    unfold multiInputCheck
    cases hf : s.find p with
    | none => simp
    | some j =>
      dsimp only [Option.bind]
      cases hl2 : s.list ("index/tx_inputs/" ++ toString (json_get_int j "tx_id")) with
      | none => simp [hl2]
      | some ins => simp [hl2]

/-- C5 witness: with one transaction holding exactly 10 input-index entries
and one holding 11, the count is 1. -/
theorem query_multi_input_tx_spec_witness :
    w5.list "tx" = some ["tx/0", "tx/1"] ∧ query_multi_input_tx w5 = 1 := by
  constructor
  · rfl
  · have h := (query_multi_input_tx_spec w5).2.1 ["tx/0", "tx/1"] rfl
    rw [h]
    decide

/-- C6 counterexample: on a store whose single transaction decodes to fee
-5, the query returns 0, not the maximum fee -5, although the transaction
listing is non-empty. -/
theorem query_calculate_fee_neg_cex :
    cexStore6.list "tx" = some ["tx/0"] ∧
    txFeesList cexStore6 = [-5] ∧
    query_calculate_fee cexStore6 = 0 ∧
    (0 : Int) ≠ -5 := by
  refine ⟨rfl, by decide, by decide, by decide⟩

/-- C6 amended: `query_calculate_fee` returns the maximum of 0 and the
decoded fees of the `tx` listing: it is 0 on an absent listing, never
negative, an upper bound of every decoded fee, and either 0 or one of the
decoded fees. -/
theorem query_calculate_fee_amended (s : Store) :
    (s.list "tx" = none → query_calculate_fee s = 0) ∧
    0 ≤ query_calculate_fee s ∧
    (∀ f ∈ txFeesList s, f ≤ query_calculate_fee s) ∧
    (query_calculate_fee s = 0 ∨ query_calculate_fee s ∈ txFeesList s) := by
  refine ⟨?_, ?_, ?_, ?_⟩
  · intro h; unfold query_calculate_fee foldTxJson optFold; rw [h]
  · rw [query_calculate_fee_eq]; exact le_foldl_maxIf _ 0
  · intro f hf; rw [query_calculate_fee_eq]; exact mem_le_foldl_maxIf _ 0 f hf
  · rw [query_calculate_fee_eq]; exact foldl_maxIf_mem _ 0

/-- C6 amended witness: with decoded fees 7 and 3 the query returns 7, an
attained upper bound; on the empty store it returns 0. -/
theorem query_calculate_fee_amended_witness :
    query_calculate_fee emptyStore = 0 ∧
    txFeesList w6 = [7, 3] ∧
    query_calculate_fee w6 = 7 ∧
    (3 : Int) ≤ query_calculate_fee w6 ∧
    (query_calculate_fee w6 = 0 ∨ query_calculate_fee w6 ∈ txFeesList w6) := by
  refine ⟨(query_calculate_fee_amended emptyStore).1 rfl, by decide, by decide, ?_,
    (query_calculate_fee_amended w6).2.2.2⟩
  exact (query_calculate_fee_amended w6).2.2.1 3 (by decide)

/-- bounds and congruence of the 32-bit truncation. -/
theorem wrap32_bounds (x : Int) :
    -2147483648 ≤ wrap32 x ∧ wrap32 x < 2147483648 ∧
    ∃ k : Int, x = wrap32 x + k * 4294967296 := by
  unfold wrap32
  exact ⟨by omega, by omega, ⟨(x + 2147483648) / 4294967296, by omega⟩⟩

/-- C7 counterexample: on a reference record whose `tx_id` field is 2^31,
the 64-bit decode is 2147483648 but the resolution step returns
-2147483648: the value is truncated to 32 bits, not returned as decoded. -/
theorem resolve_tx_id_trunc_cex :
    cexStore7.find "r" = some "\"tx_id\": 2147483648" ∧
    json_get_int64 "\"tx_id\": 2147483648" "tx_id" = 2147483648 ∧
    resolve_tx_id cexStore7 "r" = some (-2147483648) ∧
    some (-2147483648 : Int) ≠ some (2147483648 : Int) := by
  refine ⟨rfl, by decide, by decide, by decide⟩

/-- C7 amended: resolving a block-tx reference returns `none` (the
iteration is skipped, never fatal) when the path has no content, and
otherwise returns the `tx_id` field decoded as a 64-bit integer and then
truncated to a signed 32-bit `int`: the result is within the 32-bit range
and congruent to the 64-bit decode modulo 2^32. -/
theorem resolve_tx_id_amended (s : Store) (p : String) :
    (s.find p = none → resolve_tx_id s p = none) ∧
    (∀ j, s.find p = some j →
      resolve_tx_id s p = some (wrap32 (json_get_int64 j "tx_id")) ∧
      -2147483648 ≤ json_get_int j "tx_id" ∧
      json_get_int j "tx_id" < 2147483648 ∧
      ∃ k : Int, json_get_int64 j "tx_id" = json_get_int j "tx_id" + k * 4294967296) := by
  constructor
  · intro h
    unfold resolve_tx_id
    rw [h]
  · intro j h
    have hb := wrap32_bounds (json_get_int64 j "tx_id")
    refine ⟨?_, hb.1, hb.2.1, hb.2.2⟩
    unfold resolve_tx_id
    rw [h]
    rfl

/-- C7 amended witness: an absent path resolves to `none`; a record with
`tx_id` 5 resolves to the truncated decode of 5. -/
theorem resolve_tx_id_amended_witness :
    emptyStore.find "q" = none ∧ resolve_tx_id emptyStore "q" = none ∧
    w7.find "r" = some "\"tx_id\": 5" ∧
    resolve_tx_id w7 "r" = some (wrap32 (json_get_int64 "\"tx_id\": 5" "tx_id")) := by
  refine ⟨rfl, (resolve_tx_id_amended emptyStore "q").1 rfl, rfl, ?_⟩
  exact ((resolve_tx_id_amended w7 "r").2 "\"tx_id\": 5" rfl).1

/-- C9 counterexample: the program's catalog order is not the order the
claim asserts (the claim places the address count third and the version
count seventh; the program runs them fifth and eleventh). -/
theorem benchmarks_order_cex : benchmarks.map Prod.fst ≠ claimedCatalogOrder := by
  decide

/-- C9 amended: the output is the CSV header `Query,Time_ms,Result`
followed by exactly one `name,time,result` line per metric, in the order of
the `benchmarks[]` array: Block count, Tx count, Input count, Output count,
Address count, Tx locktime > 0, Max output value, Calculate fee, Total
output value, Total fees, Tx version > 1, Avg tx per block, Max tx per
block, Spent outputs, Unspent outputs, High value tx, Multi-input tx. -/
theorem csvOutput_amended (s : Store) (times : String → String) :
    csvOutput s times = "Query,Time_ms,Result" ::
      benchmarks.map (fun nq => nq.1 ++ "," ++ times nq.1 ++ "," ++ toString (nq.2 s)) ∧
    benchmarks.map Prod.fst =
      ["Block count", "Tx count", "Input count", "Output count", "Address count",
       "Tx locktime > 0", "Max output value", "Calculate fee", "Total output value",
       "Total fees", "Tx version > 1", "Avg tx per block", "Max tx per block",
       "Spent outputs", "Unspent outputs", "High value tx", "Multi-input tx"] ∧
    (csvOutput s times).length = 18 := by
  refine ⟨rfl, by decide, rfl⟩

/-- C10: `query_max_output_value` and `query_calculate_fee` are never
negative: each equals the maximum of 0 and its decoded candidate values (an
upper bound of all candidates that is 0 or one of them), so with only
negative candidates the result is 0. -/
theorem output_metrics_nonneg_spec (s : Store) :
    0 ≤ query_max_output_value s ∧ 0 ≤ query_calculate_fee s ∧
    (∀ v ∈ outputValuesList s, v ≤ query_max_output_value s) ∧
    (query_max_output_value s = 0 ∨ query_max_output_value s ∈ outputValuesList s) ∧
    (∀ f ∈ txFeesList s, f ≤ query_calculate_fee s) ∧
    (query_calculate_fee s = 0 ∨ query_calculate_fee s ∈ txFeesList s) := by
  refine ⟨?_, ?_, ?_, ?_, ?_, ?_⟩
  · rw [query_max_output_value_eq]; exact le_foldl_maxIf _ 0
  · rw [query_calculate_fee_eq]; exact le_foldl_maxIf _ 0
  · intro v hv; rw [query_max_output_value_eq]; exact mem_le_foldl_maxIf _ 0 v hv
  · rw [query_max_output_value_eq]; exact foldl_maxIf_mem _ 0
  · intro f hf; rw [query_calculate_fee_eq]; exact mem_le_foldl_maxIf _ 0 f hf
  · rw [query_calculate_fee_eq]; exact foldl_maxIf_mem _ 0

/-- C10 witness: on a store with one output of value 1000 the traversal's
candidate list is [1000] and the maximum 1000 is attained; with fees 7 and
3 the fee maximum bounds the candidate 7. -/
theorem output_metrics_nonneg_spec_witness :
    (1000 : Int) ∈ outputValuesList w10 ∧
    (1000 : Int) ≤ query_max_output_value w10 ∧
    (7 : Int) ∈ txFeesList w6 ∧
    (7 : Int) ≤ query_calculate_fee w6 := by
  refine ⟨by decide, (output_metrics_nonneg_spec w10).2.2.1 1000 (by decide), by decide,
    (output_metrics_nonneg_spec w6).2.2.2.2.1 7 (by decide)⟩

/-- C8: every metric of the catalog computes the same value on two stores
with identical contents whose listings agree up to permutation: listing
order never influences a result. -/
theorem benchmarks_perm_invariant (s s' : Store) (hsp : StorePerm s s') :
    ∀ nq ∈ benchmarks, nq.2 s = nq.2 s' := by
  intro nq hmem
  simp only [benchmarks, List.mem_cons, List.not_mem_nil, or_false] at hmem
  rcases hmem with rfl | rfl | rfl | rfl | rfl | rfl | rfl | rfl | rfl | rfl | rfl | rfl |
    rfl | rfl | rfl | rfl | rfl
  · exact query_block_count_inv s s' hsp
  · exact query_tx_count_inv s s' hsp
  · exact query_input_count_inv s s' hsp
  · exact query_output_count_inv s s' hsp
  · exact query_address_count_inv s s' hsp
  · exact query_tx_locktime_gt_0_inv s s' hsp
  · exact query_max_output_value_inv s s' hsp
  · exact query_calculate_fee_inv s s' hsp
  · exact query_total_output_value_inv s s' hsp
  · exact query_total_fees_inv s s' hsp
  · exact query_tx_version_gt_1_inv s s' hsp
  · exact query_avg_tx_per_block_inv s s' hsp
  · exact query_max_tx_per_block_inv s s' hsp
  · exact query_spent_outputs_inv s s' hsp
  · exact query_unspent_outputs_inv s s' hsp
  · exact query_high_value_tx_inv s s' hsp
  · exact query_multi_input_tx_inv s s' hsp

/-- the two permuted-listing witness stores are related by `StorePerm`. -/
theorem w8_storePerm : StorePerm w8a w8b := by
  constructor
  · rfl
  · intro p
    by_cases hp : p = "tx"
    · have ha : w8a.list p = some ["tx/0", "tx/1"] := by
        show w8lista p = some ["tx/0", "tx/1"]
        unfold w8lista
        rw [if_pos hp]
      have hb : w8b.list p = some ["tx/1", "tx/0"] := by
        show w8listb p = some ["tx/1", "tx/0"]
        unfold w8listb
        rw [if_pos hp]
      rw [ha, hb]
      exact OptPerm.some (List.Perm.swap "tx/1" "tx/0" [])
    · have ha : w8a.list p = none := by
        show w8lista p = none
        unfold w8lista
        rw [if_neg hp]
      have hb : w8b.list p = none := by
        show w8listb p = none
        unfold w8listb
        rw [if_neg hp]
      rw [ha, hb]
      exact OptPerm.none

/-- C8 witness: two concrete stores with the same contents and a permuted
`tx` listing satisfy `StorePerm`, so every catalog metric agrees on them. -/
theorem benchmarks_perm_invariant_witness :
    StorePerm w8a w8b ∧ ∀ nq ∈ benchmarks, nq.2 w8a = nq.2 w8b :=
  ⟨w8_storePerm, benchmarks_perm_invariant w8a w8b w8_storePerm⟩
